import Mathlib

/-!
Verification of the grant-lifecycle core of `src/backend/blocklist.py`
(`BlocklistManager`), shallowly embedded in Lean.

Modelling conventions:
- Python `str` is Lean `String`; the configured domain sets (`conditional_domains`,
  `always_blocked_domains`) are `Finset String` (Python `set`).
- The dict `active_unblocks : dict[str, ActiveUnblock]` maps domains to shared
  `ActiveUnblock` objects.  Object identity is modelled by a fresh `Nat` id per
  created object: `activeUnblocks` maps a domain to the id, and `grants` maps the
  id to the record.  Mutating/cancelling through one alias key is then visible
  through the others, as in Python.
- `asyncio` timers are explicit records carrying the id of the task, the domain
  set captured at creation, the absolute fire time and a cancelled flag.  A timer
  may fire (as a discrete event) only when simulated time has reached its fire
  time and it has not been cancelled: `Task.cancel` on a task suspended in
  `asyncio.sleep` guarantees the body after the sleep never runs.
- Time is simulated as an `Int` counted in minutes (`datetime.now` = current
  `now`; `timedelta(minutes=m)` = `+ m`); `duration_minutes` is `Int` because a
  Python `int` may be zero or negative.
- `subprocess` effects are modelled by their observable outcomes: each call to
  `_write_blocklist` increments `syncAttempts` and, when the privileged write
  succeeds (`syncOk = true`), prepends the blocked set that was serialized to
  `writes`; `_signal_dnsmasq` increments `signals`.  Success or failure of the
  external write is an environment choice, so it is a parameter of each
  operation.
- The `on_reblock_callback` collaborator receives one string per invocation;
  each invocation is recorded by prepending the domain to `reblockEvents`.
-/

namespace PGuard

/-- First line of every written blocklist file: `HOSTS_HEADER` in
`blocklist.py` line 19 (the trailing newline is represented by treating the
file as a list of lines). -/
def HOSTS_HEADER : String := "# Managed by Productivity Guard — do not edit manually"

/-- `ActiveUnblock` (blocklist.py lines 22-41): one temporarily unblocked
grant.  `domain` is the exact spelling passed to `unblock_domain`;
`unblocked_at = datetime.now()`, `expires_at = unblocked_at +
timedelta(minutes=duration_minutes)`.  `timerId` models the
`timer_task : Optional[asyncio.Task]` field (assigned right after creation in
`unblock_domain`). -/
structure ActiveUnblock where
  domain : String
  device_ip : String
  device_name : Option String
  scope : Option String
  reason : String
  unblocked_at : Int
  expires_at : Int
  timerId : Nat
deriving DecidableEq, Repr

/-- A scheduled `_reblock_after` task: `domains` is the set captured when the
task was created, `fireAt` the absolute time at which `asyncio.sleep` elapses,
`cancelled` whether `Task.cancel` has been called before the fire began. -/
structure Timer where
  id : Nat
  domains : List String
  fireAt : Int
  cancelled : Bool
deriving DecidableEq, Repr

/-- The full observable state of a `BlocklistManager` plus its environment
history (successful file writes, sync attempts, reload signals, callback
invocations) and the simulated clock. -/
structure ManagerState where
  conditional : Finset String
  alwaysBlocked : Finset String
  activeUnblocks : List (String × Nat)
  grants : List (Nat × ActiveUnblock)
  timers : List Timer
  nextId : Nat
  now : Int
  writes : List (Finset String)
  syncAttempts : Nat
  signals : Nat
  reblockEvents : List String
deriving DecidableEq

/-- Association-list lookup (Python `dict` access / `in` test). -/
def alookup {α β : Type} [DecidableEq α] : List (α × β) → α → Option β
  | [], _ => none
  | p :: rest, k => if p.1 = k then some p.2 else alookup rest k

/-- Remove a key (Python `dict.pop`). -/
def aerase {α β : Type} [DecidableEq α] (m : List (α × β)) (k : α) : List (α × β) :=
  m.filter (fun p => decide (p.1 ≠ k))

/-- Set a key (Python `dict[k] = v`). -/
def ainsert {α β : Type} [DecidableEq α] (m : List (α × β)) (k : α) (v : β) :
    List (α × β) :=
  (k, v) :: aerase m k

/-- The key set of the dict (Python `set(d.keys())`). -/
def akeys {β : Type} (m : List (String × β)) : Finset String :=
  (m.map Prod.fst).toFinset

/-- `self.all_blocked_domains = self.conditional_domains | self.always_blocked_domains`
(blocklist.py line 55; it is never mutated, so it is derived here). -/
def allBlockedDomains (s : ManagerState) : Finset String :=
  s.conditional ∪ s.alwaysBlocked

/-- `domain.startswith("www.")`, computed on the character list (so that it
reduces inside the kernel; `String.startsWith` itself is defined by
well-founded recursion over byte positions and is definitionally opaque). -/
def startsWithWWW (domain : String) : Bool :=
  "www.".data.isPrefixOf domain.data

/-- `BlocklistManager._get_related_domains` (blocklist.py lines 162-173), with
`self.all_blocked_domains` passed explicitly: the www/non-www variants of
`domain` that are in the configured universe. -/
def getRelatedDomains (all_blocked_domains : Finset String) (domain : String) :
    List String :=
  if startsWithWWW domain then
    let base := domain.drop 4
    if base ∈ all_blocked_domains then [base] else []
  else
    let www := "www." ++ domain
    if www ∈ all_blocked_domains then [www] else []

/-- `domains_to_unblock = {domain} | related_domains` (blocklist.py line 94),
kept as a list with the requested spelling first. -/
def domainsToUnblock (all_blocked_domains : Finset String) (domain : String) :
    List String :=
  domain :: getRelatedDomains all_blocked_domains domain

/-- `ActiveUnblock.__init__` (blocklist.py lines 25-41). -/
def mkActiveUnblock (domain device_ip : String) (device_name scope : Option String)
    (reason : String) (duration_minutes : Int) (now : Int) (timerId : Nat) :
    ActiveUnblock :=
  { domain := domain, device_ip := device_ip, device_name := device_name,
    scope := scope, reason := reason, unblocked_at := now,
    expires_at := now + duration_minutes, timerId := timerId }

/-- `timer_task.cancel()` on the task with id `tid`. -/
def cancelTimer (ts : List Timer) (tid : Nat) : List Timer :=
  ts.map (fun t => if t.id = tid then { t with cancelled := true } else t)

/-- Insert every domain of `ds` with the same object id (blocklist.py
lines 106-107: `for d in domains_to_unblock: self.active_unblocks[d] = unblock`). -/
def insertAll (m : List (String × Nat)) : List String → Nat → List (String × Nat)
  | [], _ => m
  | d :: ds, gid => insertAll (ainsert m d gid) ds gid

/-- `for d in domains: self.active_unblocks.pop(d, None)` (blocklist.py
lines 223-224). -/
def eraseAll (m : List (String × Nat)) : List String → List (String × Nat)
  | [] => m
  | d :: ds => eraseAll (aerase m d) ds

/-- The set serialized by `_write_blocklist` (blocklist.py lines 177-178):
`blocked = self.all_blocked_domains - set(self.active_unblocks.keys())`. -/
def blockedSet (s : ManagerState) : Finset String :=
  allBlockedDomains s \ akeys s.activeUnblocks

/-- `_write_blocklist` (blocklist.py lines 175-200): one sync attempt; when the
privileged write succeeds the serialized blocked set is recorded.  On failure
the error is only logged — no state is rolled back and nothing is reported to
the caller. -/
def writeBlocklist (s : ManagerState) (syncOk : Bool) : ManagerState :=
  { s with syncAttempts := s.syncAttempts + 1,
           writes := if syncOk then blockedSet s :: s.writes else s.writes }

/-- `_signal_dnsmasq` (blocklist.py lines 202-217): sends SIGHUP; only the fact
that a signal was issued is observable to this model. -/
def signalDnsmasq (s : ManagerState) : ManagerState :=
  { s with signals := s.signals + 1 }

/-- Second line of every written file: `# Updated: <timestamp>`
(blocklist.py line 181). -/
def updatedLine (ts : String) : String := "# Updated: " ++ ts

/-- One body line per blocked domain: `0.0.0.0 <domain>` (blocklist.py
line 183). -/
def hostsLine (domain : String) : String := "0.0.0.0 " ++ domain

/-- The exact sequence of lines `_write_blocklist` serializes (blocklist.py
lines 180-185): the fixed banner, the update line, then `0.0.0.0 d` for each
blocked domain in Python `sorted` order (lexicographic on code points, matching
`String`'s linear order). -/
def blocklistLines (s : ManagerState) (ts : String) : List String :=
  let blocked := blockedSet s
  [HOSTS_HEADER] ++ [updatedLine ts] ++ (blocked.sort (· ≤ ·)).map hostsLine

/-- Lines 85-90 of `unblock_domain`: if the requested domain is already
unblocked, cancel the existing grant's timer (`existing.timer_task.cancel()`).
Only the timer list is affected, so that list is what this computes. -/
def cancelExisting (s : ManagerState) (domain : String) : List Timer :=
  match alookup s.activeUnblocks domain with
  | some gid =>
    match alookup s.grants gid with
    | some existing => cancelTimer s.timers existing.timerId
    | none => s.timers
  | none => s.timers

/-- `BlocklistManager.unblock_domain` (blocklist.py lines 67-122).  Returns the
Python return value and the state after the call.  `syncOk` is the outcome of
the external privileged write attempted during the call.  (In the source the
timer task is created after the write and the signal; neither reads the timer
list, so the state below attaches the new timer before applying them — the
resulting state is identical.) -/
def unblock_domain (s : ManagerState) (domain device_ip : String)
    (device_name scope : Option String) (reason : String)
    (duration_minutes : Int) (syncOk : Bool) : Bool × ManagerState :=
  if domain ∈ s.alwaysBlocked then (false, s)
  else if domain ∉ s.conditional then (false, s)
  else
    let ds := domainsToUnblock (allBlockedDomains s) domain
    let gid := s.nextId
    let unblock := mkActiveUnblock domain device_ip device_name scope reason
      duration_minutes s.now gid
    let s2 : ManagerState :=
      { s with activeUnblocks := insertAll s.activeUnblocks ds gid,
               grants := ainsert s.grants gid unblock,
               timers :=
                 { id := gid, domains := ds, fireAt := unblock.expires_at,
                   cancelled := false } :: cancelExisting s domain,
               nextId := s.nextId + 1 }
    (true, signalDnsmasq (writeBlocklist s2 syncOk))

/-- The loop of `reblock_domain` (blocklist.py lines 129-133): for each related
domain currently unblocked, pop it and cancel the popped grant's timer.  Only
the dict and the timer list change; `grants` (the object heap) is read-only
here, so it is passed separately. -/
def revokeLoop (grants : List (Nat × ActiveUnblock)) :
    List String → List (String × Nat) → List Timer →
    List (String × Nat) × List Timer
  | [], m, ts => (m, ts)
  | d :: rest, m, ts =>
    match alookup m d with
    | some gid =>
      match alookup grants gid with
      | some g => revokeLoop grants rest (aerase m d) (cancelTimer ts g.timerId)
      | none => revokeLoop grants rest (aerase m d) ts
    | none => revokeLoop grants rest m ts

/-- `BlocklistManager.reblock_domain` (blocklist.py lines 124-137): pop every
related domain that is unblocked, cancelling its grant's timer, then write and
signal. -/
def reblock_domain (s : ManagerState) (domain : String) (syncOk : Bool) :
    ManagerState :=
  let ds := domainsToUnblock (allBlockedDomains s) domain
  let r := revokeLoop s.grants ds s.activeUnblocks s.timers
  let s1 := { s with activeUnblocks := r.1, timers := r.2 }
  signalDnsmasq (writeBlocklist s1 syncOk)

/-- The loop of `reblock_all` (blocklist.py lines 141-143): cancel the timer of
every tracked unblock object. -/
def cancelAllLoop (grants : List (Nat × ActiveUnblock)) :
    List (String × Nat) → List Timer → List Timer
  | [], ts => ts
  | p :: rest, ts =>
    match alookup grants p.2 with
    | some g => cancelAllLoop grants rest (cancelTimer ts g.timerId)
    | none => cancelAllLoop grants rest ts

/-- `BlocklistManager.reblock_all` (blocklist.py lines 139-147): cancel the
timer of every tracked unblock, clear the table, write and signal once. -/
def reblock_all (s : ManagerState) (syncOk : Bool) : ManagerState :=
  let ts := cancelAllLoop s.grants s.activeUnblocks s.timers
  let s1 := { s with timers := ts, activeUnblocks := [] }
  signalDnsmasq (writeBlocklist s1 syncOk)

/-- `BlocklistManager.is_domain_unblocked` (blocklist.py lines 159-160):
`domain in self.active_unblocks`. -/
def is_domain_unblocked (s : ManagerState) (domain : String) : Bool :=
  (alookup s.activeUnblocks domain).isSome

/-- Recursion of `get_active_unblocks` (blocklist.py lines 149-157) over the
dict items, threading the `seen` set of base domains. -/
def gatherActive (grants : List (Nat × ActiveUnblock)) :
    List (String × Nat) → Finset String → List ActiveUnblock
  | [], _ => []
  | p :: rest, seen =>
    match alookup grants p.2 with
    | none => gatherActive grants rest seen
    | some u =>
      if u.domain ∈ seen then gatherActive grants rest seen
      else u :: gatherActive grants rest (insert u.domain seen)

/-- `BlocklistManager.get_active_unblocks` (blocklist.py lines 149-157):
the tracked unblock objects, deduplicated by their stored `domain`. -/
def get_active_unblocks (s : ManagerState) : List ActiveUnblock :=
  gatherActive s.grants s.activeUnblocks ∅

/-- `_reblock_after` reaching the end of its sleep (blocklist.py lines 219-233)
for the task with id `tid`: a no-op unless the task exists, was not cancelled,
and its sleep has elapsed; otherwise pop the captured domains, write, signal,
and invoke the reblock callback once per domain.  The fired task is removed
(a completed task cannot run again). -/
def fireTimer (s : ManagerState) (tid : Nat) (syncOk : Bool) : ManagerState :=
  match s.timers.find? (fun t => t.id == tid) with
  | none => s
  | some t =>
    if t.cancelled then s
    else if s.now < t.fireAt then s
    else
      let s1 : ManagerState :=
        { s with timers := s.timers.filter (fun t2 => t2.id != tid),
                 activeUnblocks := eraseAll s.activeUnblocks t.domains }
      let s2 := signalDnsmasq (writeBlocklist s1 syncOk)
      { s2 with reblockEvents := t.domains ++ s2.reblockEvents }

/-- Discrete events driving a `BlocklistManager`: the three public calls, a
timer's sleep elapsing, and the passage of simulated time. -/
inductive Event where
  | grant (domain device_ip : String) (device_name scope : Option String)
      (reason : String) (duration_minutes : Int) (syncOk : Bool)
  | revoke (domain : String) (syncOk : Bool)
  | revokeAll (syncOk : Bool)
  | fire (tid : Nat) (syncOk : Bool)
  | advance (dt : Nat)
deriving DecidableEq

/-- Whether an event is a time advance. -/
def Event.isAdvance : Event → Bool
  | .advance _ => true
  | _ => false

/-- Whether an event is a timer fire. -/
def Event.isFire : Event → Bool
  | .fire _ _ => true
  | _ => false

/-- Whether an event is a grant call. -/
def Event.isGrant : Event → Bool
  | .grant _ _ _ _ _ _ _ => true
  | _ => false

/-- One event applied to the state. -/
def step (s : ManagerState) : Event → ManagerState
  | .grant d ip nm sc r dur ok => (unblock_domain s d ip nm sc r dur ok).2
  | .revoke d ok => reblock_domain s d ok
  | .revokeAll ok => reblock_all s ok
  | .fire tid ok => fireTimer s tid ok
  | .advance dt => { s with now := s.now + dt }

/-- A sequence of events applied in order. -/
def steps (s : ManagerState) (es : List Event) : ManagerState :=
  es.foldl step s

/-- `BlocklistManager.__init__` (blocklist.py lines 45-57) at simulated time 0
with an empty environment history. -/
def initState (conditional alwaysBlocked : Finset String) : ManagerState :=
  { conditional := conditional, alwaysBlocked := alwaysBlocked,
    activeUnblocks := [], grants := [], timers := [], nextId := 0, now := 0,
    writes := [], syncAttempts := 0, signals := 0, reblockEvents := [] }

/-- Whether some tracked unblock object's timer has id `tid` (the timers
`reblock_all` iterates over and cancels). -/
def timerReferenced (s : ManagerState) (tid : Nat) : Bool :=
  s.activeUnblocks.any (fun p =>
    match alookup s.grants p.2 with
    | some g => g.timerId == tid
    | none => false)

/-- Every timer with id `tid` in the list is cancelled. -/
def AllCancelledAt (tid : Nat) (ts : List Timer) : Prop :=
  ∀ t ∈ ts, t.id = tid → t.cancelled = true

section AssocLemmas

variable {α β : Type} [DecidableEq α]

theorem alookup_aerase (m : List (α × β)) (k x : α) :
    alookup (aerase m k) x = if x = k then none else alookup m x := by
  induction m with
  | nil => simp [aerase, alookup]
  | cons p m ih =>
    by_cases hpk : p.1 = k
    · have hdrop : aerase (p :: m) k = aerase m k := by
        simp [aerase, List.filter_cons, hpk]
      rw [hdrop, ih]
      by_cases hxk : x = k
      · simp [hxk]
      · have hpx : ¬ p.1 = x := fun h => hxk (h.symm.trans hpk)
        simp [alookup, hpx, hxk]
    · have hkeep : aerase (p :: m) k = p :: aerase m k := by
        simp [aerase, List.filter_cons, hpk]
      rw [hkeep]
      by_cases hpx : p.1 = x
      · have hxk : ¬ x = k := fun h => hpk (hpx.trans h)
        simp [alookup, hpx, hxk]
      · simp [alookup, hpx, ih]

theorem alookup_ainsert (m : List (α × β)) (k x : α) (v : β) :
    alookup (ainsert m k v) x = if x = k then some v else alookup m x := by
  by_cases h : k = x
  · subst h; simp [ainsert, alookup]
  · simp [ainsert, alookup, h, alookup_aerase, Ne.symm h]

end AssocLemmas

theorem alookup_insertAll (ds : List String) (m : List (String × Nat))
    (gid : Nat) (x : String) :
    alookup (insertAll m ds gid) x = if x ∈ ds then some gid else alookup m x := by
  induction ds generalizing m with
  | nil => simp [insertAll]
  | cons d ds ih =>
    by_cases hx : x ∈ ds
    · simp [insertAll, ih, hx]
    · by_cases hxd : x = d
      · subst hxd
        simp [insertAll, ih, hx, alookup_ainsert]
      · simp [insertAll, ih, hx, alookup_ainsert, hxd]

theorem alookup_eraseAll (ds : List String) (m : List (String × Nat))
    (x : String) :
    alookup (eraseAll m ds) x = if x ∈ ds then none else alookup m x := by
  induction ds generalizing m with
  | nil => simp [eraseAll]
  | cons d ds ih =>
    by_cases hx : x ∈ ds
    · simp [eraseAll, ih, hx]
    · by_cases hxd : x = d
      · subst hxd
        simp [eraseAll, ih, hx, alookup_aerase]
      · simp [eraseAll, ih, hx, alookup_aerase, hxd]

theorem mem_akeys {β : Type} (m : List (String × β)) (x : String) :
    x ∈ akeys m ↔ (alookup m x).isSome := by
  induction m with
  | nil => simp [akeys, alookup]
  | cons p m ih =>
    by_cases hpx : p.1 = x
    · subst hpx; simp [akeys, alookup]
    · simp only [akeys, List.map_cons, List.toFinset_cons, Finset.mem_insert] at ih ⊢
      simp [alookup, hpx, Ne.symm hpx, ih]

theorem mem_blockedSet (s : ManagerState) (x : String) :
    x ∈ blockedSet s ↔
      x ∈ allBlockedDomains s ∧ alookup s.activeUnblocks x = none := by
  simp only [blockedSet, Finset.mem_sdiff, mem_akeys, Option.isSome_iff_ne_none]
  tauto

theorem is_domain_unblocked_iff (s : ManagerState) (x : String) :
    is_domain_unblocked s x = true ↔ (alookup s.activeUnblocks x).isSome := by
  simp [is_domain_unblocked]

theorem cancelTimer_of_not_cancelled {ts : List Timer} {tid : Nat} {t : Timer}
    (hmem : t ∈ cancelTimer ts tid) (hnc : t.cancelled = false) :
    t ∈ ts ∧ t.id ≠ tid := by
  rcases List.mem_map.1 hmem with ⟨t0, ht0, heq⟩
  by_cases h : t0.id = tid
  · rw [if_pos h] at heq
    rw [← heq] at hnc
    simp at hnc
  · rw [if_neg h] at heq
    subst heq
    exact ⟨ht0, h⟩

theorem cancelTimer_cancelled_at {ts : List Timer} {tid : Nat} {t : Timer}
    (hmem : t ∈ cancelTimer ts tid) (hid : t.id = tid) : t.cancelled = true := by
  rcases List.mem_map.1 hmem with ⟨t0, ht0, heq⟩
  by_cases h : t0.id = tid
  · rw [if_pos h] at heq
    rw [← heq]
  · rw [if_neg h] at heq
    subst heq
    exact absurd hid h

theorem allCancelledAt_cancelTimer (ts : List Timer) (tid : Nat) :
    AllCancelledAt tid (cancelTimer ts tid) :=
  fun _ hmem hid => cancelTimer_cancelled_at hmem hid

theorem AllCancelledAt.preserve_cancelTimer {ts : List Timer} {tid : Nat}
    (h : AllCancelledAt tid ts) (tid2 : Nat) :
    AllCancelledAt tid (cancelTimer ts tid2) := by
  intro t hmem hid
  rcases List.mem_map.1 hmem with ⟨t0, ht0, heq⟩
  by_cases h2 : t0.id = tid2
  · rw [if_pos h2] at heq
    rw [← heq]
  · rw [if_neg h2] at heq
    subst heq
    exact h t0 ht0 hid

theorem AllCancelledAt.preserve_cancelAllLoop {tid : Nat}
    (G : List (Nat × ActiveUnblock)) (l : List (String × Nat))
    {ts : List Timer} (h : AllCancelledAt tid ts) :
    AllCancelledAt tid (cancelAllLoop G l ts) := by
  induction l generalizing ts with
  | nil => exact h
  | cons p rest ih =>
    cases hg : alookup G p.2 with
    | none => simpa [cancelAllLoop, hg] using ih h
    | some g => simpa [cancelAllLoop, hg] using ih (h.preserve_cancelTimer g.timerId)

theorem cancelAllLoop_cancels (G : List (Nat × ActiveUnblock))
    {l : List (String × Nat)} {p : String × Nat} {g : ActiveUnblock}
    (hp : p ∈ l) (hg : alookup G p.2 = some g) (ts : List Timer) :
    AllCancelledAt g.timerId (cancelAllLoop G l ts) := by
  induction l generalizing ts with
  | nil => cases hp
  | cons q rest ih =>
    rcases List.mem_cons.1 hp with hq | hq
    · subst hq
      simp only [cancelAllLoop, hg]
      exact AllCancelledAt.preserve_cancelAllLoop G rest
        (allCancelledAt_cancelTimer ts g.timerId)
    · cases hq2 : alookup G q.2 with
      | none => simpa [cancelAllLoop, hq2] using ih hq _
      | some g2 => simpa [cancelAllLoop, hq2] using ih hq _

theorem timerReferenced_spec {s : ManagerState} {tid : Nat}
    (h : timerReferenced s tid = true) :
    ∃ p ∈ s.activeUnblocks, ∃ g, alookup s.grants p.2 = some g ∧ g.timerId = tid := by
  rcases List.any_eq_true.1 h with ⟨p, hp, hmatch⟩
  cases hg : alookup s.grants p.2 with
  | none => rw [hg] at hmatch; cases hmatch
  | some g =>
    rw [hg] at hmatch
    simp only [] at hmatch
    exact ⟨p, hp, g, hg, eq_of_beq hmatch⟩

theorem revokeLoop_fst (G : List (Nat × ActiveUnblock)) (ds : List String)
    (m : List (String × Nat)) (ts : List Timer) (x : String) :
    alookup (revokeLoop G ds m ts).1 x = if x ∈ ds then none else alookup m x := by
  induction ds generalizing m ts with
  | nil => simp [revokeLoop]
  | cons d rest ih =>
    by_cases hxr : x ∈ rest
    · cases hm : alookup m d with
      | none => simp [revokeLoop, hm, ih, hxr]
      | some gid =>
        cases hg : alookup G gid with
        | none => simp [revokeLoop, hm, hg, ih, hxr]
        | some g => simp [revokeLoop, hm, hg, ih, hxr]
    · by_cases hxd : x = d
      · subst hxd
        cases hm : alookup m x with
        | none => simp [revokeLoop, hm, ih, hxr]
        | some gid =>
          cases hg : alookup G gid with
          | none => simp [revokeLoop, hm, hg, ih, hxr, alookup_aerase]
          | some g => simp [revokeLoop, hm, hg, ih, hxr, alookup_aerase]
      · cases hm : alookup m d with
        | none => simp [revokeLoop, hm, ih, hxr, hxd]
        | some gid =>
          cases hg : alookup G gid with
          | none => simp [revokeLoop, hm, hg, ih, hxr, hxd, alookup_aerase]
          | some g => simp [revokeLoop, hm, hg, ih, hxr, hxd, alookup_aerase]

theorem revokeLoop_empty (G : List (Nat × ActiveUnblock)) (ds : List String)
    (ts : List Timer) : revokeLoop G ds [] ts = ([], ts) := by
  induction ds with
  | nil => rfl
  | cons d rest ih => simpa [revokeLoop, alookup] using ih

/-! Field-preservation and clock lemmas for the five events. -/

theorem unblock_domain_config (s : ManagerState) (d ip : String)
    (nm sc : Option String) (r : String) (dur : Int) (ok : Bool) :
    ((unblock_domain s d ip nm sc r dur ok).2).conditional = s.conditional ∧
    ((unblock_domain s d ip nm sc r dur ok).2).alwaysBlocked = s.alwaysBlocked ∧
    ((unblock_domain s d ip nm sc r dur ok).2).now = s.now := by
  unfold unblock_domain
  split
  · exact ⟨rfl, rfl, rfl⟩
  · split
    · exact ⟨rfl, rfl, rfl⟩
    · exact ⟨rfl, rfl, rfl⟩

theorem fireTimer_config (s : ManagerState) (tid : Nat) (ok : Bool) :
    (fireTimer s tid ok).conditional = s.conditional ∧
    (fireTimer s tid ok).alwaysBlocked = s.alwaysBlocked ∧
    (fireTimer s tid ok).now = s.now := by
  unfold fireTimer
  split
  · exact ⟨rfl, rfl, rfl⟩
  · split
    · exact ⟨rfl, rfl, rfl⟩
    · split
      · exact ⟨rfl, rfl, rfl⟩
      · exact ⟨rfl, rfl, rfl⟩

theorem step_config (s : ManagerState) (e : Event) :
    (step s e).conditional = s.conditional ∧
    (step s e).alwaysBlocked = s.alwaysBlocked := by
  cases e with
  | grant d ip nm sc r dur ok =>
    exact ⟨(unblock_domain_config s d ip nm sc r dur ok).1,
      (unblock_domain_config s d ip nm sc r dur ok).2.1⟩
  | revoke d ok => exact ⟨rfl, rfl⟩
  | revokeAll ok => exact ⟨rfl, rfl⟩
  | fire tid ok =>
    exact ⟨(fireTimer_config s tid ok).1, (fireTimer_config s tid ok).2.1⟩
  | advance dt => exact ⟨rfl, rfl⟩

theorem step_now_mono (s : ManagerState) (e : Event) : s.now ≤ (step s e).now := by
  cases e with
  | grant d ip nm sc r dur ok =>
    exact le_of_eq ((unblock_domain_config s d ip nm sc r dur ok).2.2).symm
  | revoke d ok => exact le_rfl
  | revokeAll ok => exact le_rfl
  | fire tid ok => exact le_of_eq ((fireTimer_config s tid ok).2.2).symm
  | advance dt => exact le_add_of_nonneg_right (Int.ofNat_nonneg dt)

theorem steps_now_mono (es : List Event) (s : ManagerState) :
    s.now ≤ (steps s es).now := by
  induction es generalizing s with
  | nil => exact le_rfl
  | cons e es ih => exact (step_now_mono s e).trans (ih (step s e))

/-- Shape of a successful `unblock_domain` call: once the two validation
guards pass, the call commits the alias class to the table, registers the
grant object, schedules the new timer (cancelling the superseded one), and
attempts one write followed by one signal. -/
theorem unblock_domain_valid (s : ManagerState) (d ip : String)
    (nm sc : Option String) (r : String) (dur : Int) (ok : Bool)
    (ha : d ∉ s.alwaysBlocked) (hc : d ∈ s.conditional) :
    unblock_domain s d ip nm sc r dur ok =
      (true, signalDnsmasq (writeBlocklist
        { s with
          activeUnblocks :=
            insertAll s.activeUnblocks (domainsToUnblock (allBlockedDomains s) d)
              s.nextId,
          grants := ainsert s.grants s.nextId
            (mkActiveUnblock d ip nm sc r dur s.now s.nextId),
          timers :=
            { id := s.nextId, domains := domainsToUnblock (allBlockedDomains s) d,
              fireAt := s.now + dur, cancelled := false } :: cancelExisting s d,
          nextId := s.nextId + 1 } ok)) := by
  unfold unblock_domain
  rw [if_neg ha, if_neg (not_not_intro hc)]
  rfl

/-- A grant request on an always-blocked domain is rejected without any state
change (blocklist.py lines 77-79). -/
theorem unblock_domain_always_rejected {s : ManagerState} {d : String}
    (ip : String) (nm sc : Option String) (r : String) (dur : Int) (ok : Bool)
    (ha : d ∈ s.alwaysBlocked) :
    unblock_domain s d ip nm sc r dur ok = (false, s) := by
  unfold unblock_domain
  rw [if_pos ha]

/-- A grant request on a domain outside the conditional set is rejected
without any state change (blocklist.py lines 77-83). -/
theorem unblock_domain_unknown_rejected {s : ManagerState} {d : String}
    (ip : String) (nm sc : Option String) (r : String) (dur : Int) (ok : Bool)
    (h : d ∉ s.conditional) :
    unblock_domain s d ip nm sc r dur ok = (false, s) := by
  unfold unblock_domain
  by_cases ha : d ∈ s.alwaysBlocked
  · rw [if_pos ha]
  · rw [if_neg ha, if_pos h]

/-- Claim C5: grant validation fails fast with no side effects — for every
domain `d` outside the conditional set (always-blocked or unknown alike),
`unblock_domain` returns `False` and the state is entirely unchanged: no table
entry, no write, no signal, no timer, no id or clock movement. -/
theorem c5_validation_fail_fast (s : ManagerState) (d ip : String)
    (nm sc : Option String) (r : String) (dur : Int) (ok : Bool)
    (h : d ∉ s.conditional) :
    unblock_domain s d ip nm sc r dur ok = (false, s) :=
  unblock_domain_unknown_rejected ip nm sc r dur ok h

/-- C5 witness: a concrete unknown domain is rejected with the state intact. -/
theorem c5_validation_fail_fast_witness :
    "x.com" ∉ (initState {"a.com"} {"b.com"}).conditional ∧
    unblock_domain (initState {"a.com"} {"b.com"}) "x.com" "1.2.3.4" none none
        "study" 5 true = (false, initState {"a.com"} {"b.com"}) :=
  ⟨by decide, c5_validation_fail_fast _ _ _ _ _ _ _ _ (by decide)⟩

/-- C9 counterexample: `unblock_domain` accepts `duration_minutes = 0` and
stores a grant whose `expires_at` equals its `unblocked_at`, so the stored
expiry is not strictly later than the grant time for every duration argument. -/
theorem c9_counterexample :
    (alookup ((unblock_domain (initState {"a.com"} ∅) "a.com" "1.2.3.4" none
          none "study" 0 true).2).grants 0).map
        (fun u => (u.unblocked_at, u.expires_at)) = some (0, 0) := by
  decide

/-- Claim C9 (amended): every grant created by a *positive*-duration
`unblock_domain` call satisfies `unblocked_at < expires_at` strictly; the
source applies no validation to `duration_minutes`, so the strict inequality
holds exactly when the supplied duration is positive. -/
theorem c9_strict_expiry (s : ManagerState) (d ip : String)
    (nm sc : Option String) (r : String) (dur : Int) (ok : Bool)
    (ha : d ∉ s.alwaysBlocked) (hc : d ∈ s.conditional) (hdur : 0 < dur) :
    alookup ((unblock_domain s d ip nm sc r dur ok).2).grants s.nextId =
      some (mkActiveUnblock d ip nm sc r dur s.now s.nextId) ∧
    (mkActiveUnblock d ip nm sc r dur s.now s.nextId).unblocked_at <
      (mkActiveUnblock d ip nm sc r dur s.now s.nextId).expires_at := by
  rw [unblock_domain_valid s d ip nm sc r dur ok ha hc]
  constructor
  · show alookup (ainsert s.grants s.nextId _) s.nextId = _
    rw [alookup_ainsert]
    simp
  · show s.now < s.now + dur
    omega

/-- C9 witness: a concrete positive-duration grant stores a strictly later
expiry. -/
theorem c9_strict_expiry_witness :
    ("a.com" ∉ (initState {"a.com"} ∅).alwaysBlocked ∧
      "a.com" ∈ (initState {"a.com"} ∅).conditional ∧ (0 : Int) < 15) ∧
    (alookup ((unblock_domain (initState {"a.com"} ∅) "a.com" "1.2.3.4" none
          none "study" 15 true).2).grants (initState {"a.com"} ∅).nextId =
      some (mkActiveUnblock "a.com" "1.2.3.4" none none "study" 15
        (initState {"a.com"} ∅).now (initState {"a.com"} ∅).nextId) ∧
    (mkActiveUnblock "a.com" "1.2.3.4" none none "study" 15
        (initState {"a.com"} ∅).now (initState {"a.com"} ∅).nextId).unblocked_at <
      (mkActiveUnblock "a.com" "1.2.3.4" none none "study" 15
        (initState {"a.com"} ∅).now (initState {"a.com"} ∅).nextId).expires_at) :=
  ⟨⟨by decide, by decide, by decide⟩,
    c9_strict_expiry _ _ _ _ _ _ _ _ (by decide) (by decide) (by decide)⟩

/-- C3 counterexample: when the privileged write fails (`syncOk = false`) the
call still returns plain `True` — the same value as on success — and nothing in
the return value carries the sync outcome, so the sync failure is *not*
reported to the caller; the file is simply not written. -/
theorem c3_counterexample :
    (unblock_domain (initState {"a.com"} ∅) "a.com" "1.2.3.4" none none
        "study" 5 false).1 = true ∧
    ((unblock_domain (initState {"a.com"} ∅) "a.com" "1.2.3.4" none none
        "study" 5 false).2).writes = [] ∧
    (unblock_domain (initState {"a.com"} ∅) "a.com" "1.2.3.4" none none
        "study" 5 false).1 =
      (unblock_domain (initState {"a.com"} ∅) "a.com" "1.2.3.4" none none
        "study" 5 true).1 := by
  decide

/-- Claim C3 (amended): sync failure does not unwind the grant — the return
value, the unblock table, the grant heap, the timer list, the id counter and
the sync-attempt count are identical whether the write fails or succeeds (only
the written-files history differs), and after a successful call the domain is
in the table with a live timer scheduled at `now + duration` — but the failure
is only logged, never reported in the return value. -/
theorem c3_sync_failure_no_unwind (s : ManagerState) (d ip : String)
    (nm sc : Option String) (r : String) (dur : Int) :
    (unblock_domain s d ip nm sc r dur false).1 =
      (unblock_domain s d ip nm sc r dur true).1 ∧
    ((unblock_domain s d ip nm sc r dur false).2).activeUnblocks =
      ((unblock_domain s d ip nm sc r dur true).2).activeUnblocks ∧
    ((unblock_domain s d ip nm sc r dur false).2).grants =
      ((unblock_domain s d ip nm sc r dur true).2).grants ∧
    ((unblock_domain s d ip nm sc r dur false).2).timers =
      ((unblock_domain s d ip nm sc r dur true).2).timers ∧
    ((unblock_domain s d ip nm sc r dur false).2).nextId =
      ((unblock_domain s d ip nm sc r dur true).2).nextId ∧
    ((unblock_domain s d ip nm sc r dur false).2).syncAttempts =
      ((unblock_domain s d ip nm sc r dur true).2).syncAttempts ∧
    ((unblock_domain s d ip nm sc r dur false).1 = true →
      is_domain_unblocked (unblock_domain s d ip nm sc r dur false).2 d = true ∧
      ∃ t, ((unblock_domain s d ip nm sc r dur false).2).timers.head? = some t ∧
        t.cancelled = false ∧ t.fireAt = s.now + dur ∧ d ∈ t.domains) := by
  by_cases ha : d ∈ s.alwaysBlocked
  · rw [unblock_domain_always_rejected ip nm sc r dur false ha,
      unblock_domain_always_rejected ip nm sc r dur true ha]
    refine ⟨rfl, rfl, rfl, rfl, rfl, rfl, fun hfalse => by cases hfalse⟩
  · by_cases hc : d ∈ s.conditional
    · rw [unblock_domain_valid s d ip nm sc r dur false ha hc,
        unblock_domain_valid s d ip nm sc r dur true ha hc]
      refine ⟨rfl, rfl, rfl, rfl, rfl, rfl, fun _ => ⟨?_, ?_⟩⟩
      · show ((alookup (insertAll s.activeUnblocks
          (domainsToUnblock (allBlockedDomains s) d) s.nextId) d).isSome) = true
        rw [alookup_insertAll]
        simp [domainsToUnblock]
      · exact ⟨_, rfl, rfl, rfl, List.mem_cons_self _ _⟩
    · rw [unblock_domain_unknown_rejected ip nm sc r dur false hc,
        unblock_domain_unknown_rejected ip nm sc r dur true hc]
      refine ⟨rfl, rfl, rfl, rfl, rfl, rfl, fun hfalse => by cases hfalse⟩

/-- C3 witness: the amended statement at a concrete grant, with the success
implication discharged. -/
theorem c3_sync_failure_no_unwind_witness :
    ((unblock_domain (initState {"a.com"} ∅) "a.com" "1.2.3.4" none none
        "study" 7 false).1 = true) ∧
    (is_domain_unblocked (unblock_domain (initState {"a.com"} ∅) "a.com"
        "1.2.3.4" none none "study" 7 false).2 "a.com" = true ∧
      ∃ t, ((unblock_domain (initState {"a.com"} ∅) "a.com" "1.2.3.4" none none
          "study" 7 false).2).timers.head? = some t ∧
        t.cancelled = false ∧ t.fireAt = (initState {"a.com"} ∅).now + 7 ∧
        "a.com" ∈ t.domains) :=
  ⟨by decide,
    (c3_sync_failure_no_unwind (initState {"a.com"} ∅) "a.com" "1.2.3.4" none
      none "study" 7).2.2.2.2.2.2 (by decide)⟩

/-- C2 as stated fails on the code: with `a.com` conditional and `www.a.com`
always-blocked, granting `a.com` pulls the always-blocked `www.a.com` into the
unblock table via `_get_related_domains` (which consults
`all_blocked_domains`, not just `conditional_domains`), and the written
blocklist omits it. -/
theorem c2_always_blocked_violated :
    "www.a.com" ∈ (initState {"a.com"} {"www.a.com"}).alwaysBlocked ∧
    (unblock_domain (initState {"a.com"} {"www.a.com"}) "a.com" "1.2.3.4" none
        none "study" 15 true).1 = true ∧
    is_domain_unblocked (unblock_domain (initState {"a.com"} {"www.a.com"})
        "a.com" "1.2.3.4" none none "study" 15 true).2 "www.a.com" = true ∧
    ((unblock_domain (initState {"a.com"} {"www.a.com"}) "a.com" "1.2.3.4" none
        none "study" 15 true).2).writes =
      [blockedSet (unblock_domain (initState {"a.com"} {"www.a.com"}) "a.com"
        "1.2.3.4" none none "study" 15 true).2] ∧
    "www.a.com" ∉ blockedSet (unblock_domain (initState {"a.com"} {"www.a.com"})
        "a.com" "1.2.3.4" none none "study" 15 true).2 := by
  decide

/-- Claim C8: every export serializes exactly the banner line, the
`# Updated: <timestamp>` line, then one `0.0.0.0 <domain>` line per blocked
domain in sorted order, where the blocked body lists precisely
`(conditional ∪ alwaysBlocked)` minus the currently-unblocked keys at the
moment of the write. -/
theorem c8_serialization (s : ManagerState) (ts : String) :
    blocklistLines s ts =
      HOSTS_HEADER :: updatedLine ts ::
        ((blockedSet s).sort (· ≤ ·)).map hostsLine ∧
    List.Sorted (· ≤ ·) ((blockedSet s).sort (· ≤ ·)) ∧
    ((blockedSet s).sort (· ≤ ·)).Nodup ∧
    ∀ x, x ∈ (blockedSet s).sort (· ≤ ·) ↔
      x ∈ allBlockedDomains s ∧ is_domain_unblocked s x = false := by
  refine ⟨rfl, Finset.sort_sorted _ _, Finset.sort_nodup _ _, fun x => ?_⟩
  rw [Finset.mem_sort, mem_blockedSet]
  cases h : alookup s.activeUnblocks x with
  | none => simp [is_domain_unblocked, h]
  | some g => simp [is_domain_unblocked, h]

/-- C8 witness: the serialization shape at a concrete state. -/
theorem c8_serialization_witness :
    blocklistLines (initState {"a.com"} ∅) "2026-01-01T00:00:00" =
      HOSTS_HEADER :: updatedLine "2026-01-01T00:00:00" ::
        ((blockedSet (initState {"a.com"} ∅)).sort (· ≤ ·)).map hostsLine :=
  (c8_serialization _ _).1

/-! Lemmas about the status report `get_active_unblocks`. -/

theorem gatherActive_not_mem_seen (G : List (Nat × ActiveUnblock)) :
    ∀ (l : List (String × Nat)) (seen : Finset String) (u : ActiveUnblock),
      u ∈ gatherActive G l seen → u.domain ∉ seen := by
  intro l
  induction l with
  | nil => intro seen u hu; cases hu
  | cons p rest ih =>
    intro seen u hu
    cases hg : alookup G p.2 with
    | none =>
      simp only [gatherActive, hg] at hu
      exact ih seen u hu
    | some u0 =>
      simp only [gatherActive, hg] at hu
      by_cases hs : u0.domain ∈ seen
      · rw [if_pos hs] at hu
        exact ih seen u hu
      · rw [if_neg hs] at hu
        rcases List.mem_cons.1 hu with hu | hu
        · subst hu; exact hs
        · intro hcon
          exact ih _ u hu (Finset.mem_insert_of_mem hcon)

theorem gatherActive_nodup (G : List (Nat × ActiveUnblock)) :
    ∀ (l : List (String × Nat)) (seen : Finset String),
      ((gatherActive G l seen).map (fun u => u.domain)).Nodup := by
  intro l
  induction l with
  | nil => intro seen; simp [gatherActive]
  | cons p rest ih =>
    intro seen
    cases hg : alookup G p.2 with
    | none => simp only [gatherActive, hg]; exact ih seen
    | some u0 =>
      simp only [gatherActive, hg]
      by_cases hs : u0.domain ∈ seen
      · rw [if_pos hs]; exact ih seen
      · rw [if_neg hs]
        rw [List.map_cons, List.nodup_cons]
        refine ⟨fun hcon => ?_, ih _⟩
        rcases List.mem_map.1 hcon with ⟨v, hv, hveq⟩
        have := gatherActive_not_mem_seen G rest (insert u0.domain seen) v hv
        exact this (hveq ▸ Finset.mem_insert_self _ _)

theorem gatherActive_sound (G : List (Nat × ActiveUnblock)) :
    ∀ (l : List (String × Nat)) (seen : Finset String) (u : ActiveUnblock),
      u ∈ gatherActive G l seen → ∃ p ∈ l, alookup G p.2 = some u := by
  intro l
  induction l with
  | nil => intro seen u hu; cases hu
  | cons p rest ih =>
    intro seen u hu
    cases hg : alookup G p.2 with
    | none =>
      simp only [gatherActive, hg] at hu
      rcases ih seen u hu with ⟨q, hq, hqeq⟩
      exact ⟨q, List.mem_cons_of_mem _ hq, hqeq⟩
    | some u0 =>
      simp only [gatherActive, hg] at hu
      by_cases hs : u0.domain ∈ seen
      · rw [if_pos hs] at hu
        rcases ih seen u hu with ⟨q, hq, hqeq⟩
        exact ⟨q, List.mem_cons_of_mem _ hq, hqeq⟩
      · rw [if_neg hs] at hu
        rcases List.mem_cons.1 hu with hu | hu
        · exact ⟨p, List.mem_cons_self _ _, hu ▸ hg⟩
        · rcases ih _ u hu with ⟨q, hq, hqeq⟩
          exact ⟨q, List.mem_cons_of_mem _ hq, hqeq⟩

theorem gatherActive_complete (G : List (Nat × ActiveUnblock)) :
    ∀ (l : List (String × Nat)) (seen : Finset String) (p : String × Nat)
      (u : ActiveUnblock), p ∈ l → alookup G p.2 = some u →
      u.domain ∈ seen ∨ ∃ v ∈ gatherActive G l seen, v.domain = u.domain := by
  intro l
  induction l with
  | nil => intro seen p u hp; cases hp
  | cons q rest ih =>
    intro seen p u hp hu
    rcases List.mem_cons.1 hp with hq | hq
    · subst hq
      simp only [gatherActive, hu]
      by_cases hs : u.domain ∈ seen
      · exact Or.inl hs
      · rw [if_neg hs]
        exact Or.inr ⟨u, List.mem_cons_self _ _, rfl⟩
    · cases hg : alookup G q.2 with
      | none =>
        simp only [gatherActive, hg]
        exact ih seen p u hq hu
      | some u0 =>
        simp only [gatherActive, hg]
        by_cases hs : u0.domain ∈ seen
        · rw [if_pos hs]
          exact ih seen p u hq hu
        · rw [if_neg hs]
          rcases ih (insert u0.domain seen) p u hq hu with hmem | ⟨v, hv, hveq⟩
          · rcases Finset.mem_insert.1 hmem with heq | hmem
            · exact Or.inr ⟨u0, List.mem_cons_self _ _, heq.symm⟩
            · exact Or.inl hmem
          · exact Or.inr ⟨v, List.mem_cons_of_mem _ hv, hveq⟩

/-- Claim C10: a grant stores exactly the requested spelling, and the status
report exposes one entry per grant under that spelling: the returned list has
pairwise distinct stored domains, each returned entry is a tracked grant
object, and every tracked grant object is represented under its stored
(requested) spelling — so an alias class is reported once, under the spelling
that was requested. -/
theorem c10_status_report (s : ManagerState) (d ip : String)
    (nm sc : Option String) (r : String) (dur : Int) (ok : Bool)
    (ha : d ∉ s.alwaysBlocked) (hc : d ∈ s.conditional) :
    (alookup ((unblock_domain s d ip nm sc r dur ok).2).grants s.nextId =
        some (mkActiveUnblock d ip nm sc r dur s.now s.nextId) ∧
      (mkActiveUnblock d ip nm sc r dur s.now s.nextId).domain = d) ∧
    ((get_active_unblocks s).map (fun u => u.domain)).Nodup ∧
    (∀ u ∈ get_active_unblocks s,
      ∃ p ∈ s.activeUnblocks, alookup s.grants p.2 = some u) ∧
    (∀ p ∈ s.activeUnblocks, ∀ u, alookup s.grants p.2 = some u →
      ∃ v ∈ get_active_unblocks s, v.domain = u.domain) := by
  refine ⟨⟨?_, rfl⟩, gatherActive_nodup s.grants s.activeUnblocks ∅,
    fun u hu => gatherActive_sound s.grants s.activeUnblocks ∅ u hu,
    fun p hp u hu => ?_⟩
  · rw [unblock_domain_valid s d ip nm sc r dur ok ha hc]
    show alookup (ainsert s.grants s.nextId _) s.nextId = _
    rw [alookup_ainsert]
    simp
  · rcases gatherActive_complete s.grants s.activeUnblocks ∅ p u hp hu with
      hmem | hv
    · exact absurd hmem (Finset.not_mem_empty _)
    · exact hv

/-- C10 witness: with `a.com` and `www.a.com` both configured and `a.com`
granted, the report contains exactly one entry and it carries the requested
spelling. -/
theorem c10_status_report_witness :
    ("a.com" ∉ (initState {"a.com", "www.a.com"} ∅).alwaysBlocked ∧
      "a.com" ∈ (initState {"a.com", "www.a.com"} ∅).conditional) ∧
    (((get_active_unblocks (unblock_domain (initState {"a.com", "www.a.com"} ∅)
          "a.com" "1.2.3.4" none none "study" 15 true).2).map
        (fun u => u.domain)).Nodup ∧
      (get_active_unblocks (unblock_domain (initState {"a.com", "www.a.com"} ∅)
          "a.com" "1.2.3.4" none none "study" 15 true).2).map
        (fun u => u.domain) = ["a.com"]) :=
  ⟨⟨by decide, by decide⟩,
    (c10_status_report (unblock_domain (initState {"a.com", "www.a.com"} ∅)
        "a.com" "1.2.3.4" none none "study" 15 true).2 "a.com" "1.2.3.4" none
        none "study" 15 true (by decide) (by decide)).2.1,
    by decide⟩

/-- C7 counterexample: with `{a.com, www.a.com}` configured (a two-member
alias class) and `a.com` granted, revoking the unconfigured chained spelling
`www.www.a.com` pops only `www.a.com` — leaving the alias class half-granted:
`a.com` stays active while its configured variant `www.a.com` is re-blocked
(and the class's timer is cancelled). -/
theorem c7_counterexample :
    getRelatedDomains (allBlockedDomains (steps (initState
        {"a.com", "www.a.com"} ∅)
        [.grant "a.com" "1.2.3.4" none none "study" 15 true,
         .revoke "www.www.a.com" true])) "a.com" = ["www.a.com"] ∧
    is_domain_unblocked (steps (initState {"a.com", "www.a.com"} ∅)
        [.grant "a.com" "1.2.3.4" none none "study" 15 true,
         .revoke "www.www.a.com" true]) "a.com" = true ∧
    is_domain_unblocked (steps (initState {"a.com", "www.a.com"} ∅)
        [.grant "a.com" "1.2.3.4" none none "study" 15 true,
         .revoke "www.www.a.com" true]) "www.a.com" = false := by
  decide

/-- Claim C7 (amended): each single call is all-or-nothing on the requested
domain's resolved alias class — after a successful grant every resolved member
is active, and after a revoke no resolved member is active.  (The global
never-half-granted invariant fails for chained `www.`-spellings, see the
counterexample, so per-call atomicity on the resolved class is what the code
guarantees.) -/
theorem c7_alias_class_per_call (s : ManagerState) (d ip : String)
    (nm sc : Option String) (r : String) (dur : Int) (ok ok2 : Bool) :
    (d ∉ s.alwaysBlocked → d ∈ s.conditional →
      ∀ x ∈ domainsToUnblock (allBlockedDomains s) d,
        is_domain_unblocked (unblock_domain s d ip nm sc r dur ok).2 x = true) ∧
    (∀ x ∈ domainsToUnblock (allBlockedDomains s) d,
      is_domain_unblocked (reblock_domain s d ok2) x = false) := by
  constructor
  · intro ha hc x hx
    rw [unblock_domain_valid s d ip nm sc r dur ok ha hc]
    show (alookup (insertAll s.activeUnblocks _ _) x).isSome = true
    rw [alookup_insertAll, if_pos hx]
    rfl
  · intro x hx
    show (alookup (revokeLoop s.grants (domainsToUnblock (allBlockedDomains s) d)
      s.activeUnblocks s.timers).1 x).isSome = false
    rw [revokeLoop_fst, if_pos hx]
    rfl

/-- C7 witness: granting `a.com` activates both members of its class, and
revoking `a.com` clears both. -/
theorem c7_alias_class_per_call_witness :
    ("a.com" ∉ (initState {"a.com", "www.a.com"} ∅).alwaysBlocked ∧
      "a.com" ∈ (initState {"a.com", "www.a.com"} ∅).conditional) ∧
    (∀ x ∈ domainsToUnblock (allBlockedDomains (initState
        {"a.com", "www.a.com"} ∅)) "a.com",
      is_domain_unblocked (unblock_domain (initState {"a.com", "www.a.com"} ∅)
        "a.com" "1.2.3.4" none none "study" 15 true).2 x = true) ∧
    (∀ x ∈ domainsToUnblock (allBlockedDomains (initState
        {"a.com", "www.a.com"} ∅)) "a.com",
      is_domain_unblocked (reblock_domain (initState {"a.com", "www.a.com"} ∅)
        "a.com" true) x = false) :=
  ⟨⟨by decide, by decide⟩,
    (c7_alias_class_per_call (initState {"a.com", "www.a.com"} ∅) "a.com"
        "1.2.3.4" none none "study" 15 true true).1 (by decide) (by decide),
    (c7_alias_class_per_call (initState {"a.com", "www.a.com"} ∅) "a.com"
        "1.2.3.4" none none "study" 15 true true).2⟩

theorem getRelatedDomains_subset (U : Finset String) (d x : String)
    (h : x ∈ getRelatedDomains U d) : x ∈ U := by
  simp only [getRelatedDomains] at h
  by_cases hw : startsWithWWW d = true
  · rw [if_pos hw] at h
    by_cases hb : d.drop 4 ∈ U
    · rw [if_pos hb] at h
      rcases List.mem_singleton.1 h with rfl
      exact hb
    · rw [if_neg hb] at h
      cases h
  · rw [if_neg hw] at h
    by_cases hb : "www." ++ d ∈ U
    · rw [if_pos hb] at h
      rcases List.mem_singleton.1 h with rfl
      exact hb
    · rw [if_neg hb] at h
      cases h

theorem mem_domainsToUnblock_mem_all {s : ManagerState} {d x : String}
    (hc : d ∈ s.conditional)
    (hx : x ∈ domainsToUnblock (allBlockedDomains s) d) :
    x ∈ allBlockedDomains s := by
  rcases List.mem_cons.1 hx with rfl | hx
  · exact Finset.mem_union_left _ hc
  · exact getRelatedDomains_subset _ _ _ hx

theorem eraseAll_nil : ∀ ds : List String, eraseAll [] ds = [] := by
  intro ds
  induction ds with
  | nil => rfl
  | cons d ds ih => simpa [eraseAll, aerase] using ih

/-- A fire whose task is found live and due executes the body of
`_reblock_after`. -/
theorem fireTimer_fires {s : ManagerState} {tid : Nat} {t : Timer} (ok : Bool)
    (hfind : s.timers.find? (fun t2 => t2.id == tid) = some t)
    (hnc : t.cancelled = false) (hfa : t.fireAt ≤ s.now) :
    fireTimer s tid ok =
      { s with timers := s.timers.filter (fun t2 => t2.id != tid),
               activeUnblocks := eraseAll s.activeUnblocks t.domains,
               syncAttempts := s.syncAttempts + 1,
               signals := s.signals + 1,
               writes := if ok then
                   (allBlockedDomains s \
                     akeys (eraseAll s.activeUnblocks t.domains)) :: s.writes
                 else s.writes,
               reblockEvents := t.domains ++ s.reblockEvents } := by
  unfold fireTimer
  rw [hfind]
  simp only [hnc]
  rw [if_neg (Bool.false_ne_true), if_neg (not_lt.2 hfa)]
  rfl

/-- A fire whose every candidate task is cancelled is a no-op. -/
theorem fireTimer_noop_of_cancelled {s : ManagerState} {tid : Nat} (ok : Bool)
    (h : ∀ t ∈ s.timers, t.id = tid → t.cancelled = true) :
    fireTimer s tid ok = s := by
  cases hfind : s.timers.find? (fun t2 => t2.id == tid) with
  | none => unfold fireTimer; rw [hfind]
  | some t =>
    have ht := List.mem_of_find?_eq_some hfind
    have hp := List.find?_some hfind
    unfold fireTimer
    rw [hfind]
    simp [h t ht (eq_of_beq hp)]

/-- C4 counterexample: natural expiry of the `{a.com, www.a.com}` grant
invokes the reblock callback once per member — two single-domain events, never
one event carrying all expired members. -/
theorem c4_counterexample :
    (steps (initState {"a.com", "www.a.com"} ∅)
        [.grant "a.com" "1.2.3.4" none none "study" 15 true, .advance 15,
         .fire 0 true]).reblockEvents = ["a.com", "www.a.com"] ∧
    (steps (initState {"a.com", "www.a.com"} ∅)
        [.grant "a.com" "1.2.3.4" none none "study" 15 true, .advance 15,
         .fire 0 true]).reblockEvents.length ≠ 1 := by
  decide

/-- Claim C4 (amended): natural expiry of a grant with no intervening calls
deactivates every member of its alias class, performs one write in which every
member is re-included in the blocked set, fires at most once (a second fire of
the same handle is a no-op), and notifies the reblock callback once *per
expired member domain* — n single-domain events for an n-member class, not one
event carrying all members. -/
theorem c4_natural_expiry (s : ManagerState) (d ip : String)
    (nm sc : Option String) (r : String) (dur : Int) (ok1 : Bool) (dt : Nat)
    (ok2 : Bool) (s1 s2 s3 : ManagerState)
    (ha : d ∉ s.alwaysBlocked) (hc : d ∈ s.conditional) (hdt : dur ≤ (dt : Int))
    (hs1 : s1 = (unblock_domain s d ip nm sc r dur ok1).2)
    (hs2 : s2 = step s1 (.advance dt))
    (hs3 : s3 = fireTimer s2 s.nextId ok2) :
    (∀ x ∈ domainsToUnblock (allBlockedDomains s) d,
      is_domain_unblocked s3 x = false) ∧
    (ok2 = true → ∃ W, s3.writes = W :: s2.writes ∧
      ∀ x ∈ domainsToUnblock (allBlockedDomains s) d, x ∈ W) ∧
    s3.reblockEvents =
      domainsToUnblock (allBlockedDomains s) d ++ s2.reblockEvents ∧
    (∀ ok3, fireTimer s3 s.nextId ok3 = s3) := by
  rw [unblock_domain_valid s d ip nm sc r dur ok1 ha hc] at hs1
  rw [hs1] at hs2
  rw [show ∀ sx : ManagerState, step sx (.advance dt) =
      { sx with now := sx.now + (dt : Int) } from fun _ => rfl] at hs2
  have hcond2 : d ∈ s2.conditional := by rw [hs2]; exact hc
  have hall2 : allBlockedDomains s2 = allBlockedDomains s := by rw [hs2]; rfl
  have hmap2 : s2.activeUnblocks =
      insertAll s.activeUnblocks (domainsToUnblock (allBlockedDomains s) d)
        s.nextId := by
    rw [hs2]
    rfl
  have hfind : s2.timers.find? (fun t2 => t2.id == s.nextId) =
      some { id := s.nextId, domains := domainsToUnblock (allBlockedDomains s) d,
             fireAt := s.now + dur, cancelled := false } := by
    rw [hs2]
    exact List.find?_cons_of_pos _ (by simp)
  have hfa : ({ id := s.nextId,
                domains := domainsToUnblock (allBlockedDomains s) d,
                fireAt := s.now + dur, cancelled := false } : Timer).fireAt ≤
      s2.now := by
    rw [hs2]
    show s.now + dur ≤ s.now + (dt : Int)
    omega
  rw [fireTimer_fires ok2 hfind rfl hfa] at hs3
  rw [hs3]
  refine ⟨?_, ?_, rfl, ?_⟩
  · intro x hx
    show (alookup (eraseAll s2.activeUnblocks
      (domainsToUnblock (allBlockedDomains s) d)) x).isSome = false
    rw [alookup_eraseAll, if_pos hx]
    rfl
  · intro hok2
    subst hok2
    refine ⟨_, rfl, fun x hx => ?_⟩
    rw [Finset.mem_sdiff]
    constructor
    · rw [hall2]
      exact mem_domainsToUnblock_mem_all hc hx
    · intro hmem
      rw [mem_akeys, alookup_eraseAll, if_pos hx] at hmem
      cases hmem
  · intro ok3
    refine fireTimer_noop_of_cancelled ok3 (fun t ht hid => absurd hid ?_)
    have := (List.mem_filter.1 ht).2
    exact bne_iff_ne.1 this

/-- C4 witness: the amended expiry behaviour at the spec's own scenario
(`{a.com, www.a.com}` granted for 15 minutes, clock advanced 15 minutes, timer
fired). -/
theorem c4_natural_expiry_witness :
    (let s0 := initState {"a.com", "www.a.com"} ∅
     let s1 := (unblock_domain s0 "a.com" "1.2.3.4" none none "study" 15 true).2
     let s2 := step s1 (.advance 15)
     let s3 := fireTimer s2 s0.nextId true
     (∀ x ∈ domainsToUnblock (allBlockedDomains s0) "a.com",
        is_domain_unblocked s3 x = false) ∧
     s3.reblockEvents =
       domainsToUnblock (allBlockedDomains s0) "a.com" ++ s2.reblockEvents) :=
  ⟨(c4_natural_expiry (initState {"a.com", "www.a.com"} ∅) "a.com" "1.2.3.4"
      none none "study" 15 true 15 true _ _ _ (by decide) (by decide)
      (by decide) rfl rfl rfl).1,
   (c4_natural_expiry (initState {"a.com", "www.a.com"} ∅) "a.com" "1.2.3.4"
      none none "study" 15 true 15 true _ _ _ (by decide) (by decide)
      (by decide) rfl rfl rfl).2.2.1⟩

/-- A fire on a state whose unblock table is empty leaves the table empty. -/
theorem fireTimer_empty_table {s : ManagerState} (tid : Nat) (ok : Bool)
    (h0 : s.activeUnblocks = []) : (fireTimer s tid ok).activeUnblocks = [] := by
  unfold fireTimer
  cases hfind : s.timers.find? (fun t2 => t2.id == tid) with
  | none => exact h0
  | some t =>
    by_cases hcan : t.cancelled = true
    · simp [hcan, h0]
    · by_cases hlt : s.now < t.fireAt
      · simp [hcan, hlt, h0]
      · simp [hcan, hlt, h0, eraseAll_nil, signalDnsmasq, writeBlocklist]

/-- Once the unblock table is empty, any sequence of non-grant events keeps it
empty. -/
theorem steps_no_grant_keeps_empty (post : List Event)
    (hpost : ∀ e ∈ post, e.isGrant = false) :
    ∀ s0 : ManagerState, s0.activeUnblocks = [] →
      (steps s0 post).activeUnblocks = [] := by
  induction post with
  | nil => intro s0 h0; exact h0
  | cons e rest ih =>
    intro s0 h0
    have he := hpost e (List.mem_cons_self _ _)
    have hstep : (step s0 e).activeUnblocks = [] := by
      cases e with
      | grant d ip nm sc r dur ok => simp [Event.isGrant] at he
      | revoke d ok =>
        show (revokeLoop s0.grants (domainsToUnblock (allBlockedDomains s0) d)
          s0.activeUnblocks s0.timers).1 = []
        rw [h0, revokeLoop_empty]
      | revokeAll ok => rfl
      | fire tid ok => exact fireTimer_empty_table tid ok h0
      | advance dt => exact h0
    exact ih (fun e2 h2 => hpost e2 (List.mem_cons_of_mem _ h2)) (step s0 e) hstep

/-- C6 counterexample: with the chained configuration
`{a.com, www.a.com, www.www.a.com}` all conditional, the call sequence
`grant(a.com); grant(www.www.a.com); grant(www.a.com); revokeAll()` leaves the
first grant's timer alive and uncancelled after `revokeAll` (the second grant
silently stole the `www.a.com` key, the third cancelled the second's timer
through that key, and `revokeAll` only cancels timers reachable from the
table) — so `revokeAll` does *not* cancel every pending expiry timer, and the
surviving stale timer later fires, rewriting the file and emitting reblock
callbacks. -/
theorem c6_counterexample :
    ((steps (initState {"a.com", "www.a.com", "www.www.a.com"} ∅)
        [.grant "a.com" "1.2.3.4" none none "study" 10 true,
         .grant "www.www.a.com" "1.2.3.4" none none "study" 10 true,
         .grant "www.a.com" "1.2.3.4" none none "study" 10 true,
         .revokeAll true]).activeUnblocks = [] ∧
      ((steps (initState {"a.com", "www.a.com", "www.www.a.com"} ∅)
        [.grant "a.com" "1.2.3.4" none none "study" 10 true,
         .grant "www.www.a.com" "1.2.3.4" none none "study" 10 true,
         .grant "www.a.com" "1.2.3.4" none none "study" 10 true,
         .revokeAll true]).timers.filter (fun t => !t.cancelled)).map
          Timer.id = [0]) ∧
    (steps (initState {"a.com", "www.a.com", "www.www.a.com"} ∅)
        [.grant "a.com" "1.2.3.4" none none "study" 10 true,
         .grant "www.www.a.com" "1.2.3.4" none none "study" 10 true,
         .grant "www.a.com" "1.2.3.4" none none "study" 10 true,
         .revokeAll true, .advance 10,
         .fire 0 true]).reblockEvents = ["a.com", "www.a.com"] := by
  decide

/-- Claim C6 (amended): `revokeAll` empties the unblock table, performs exactly
one sync (writing the fully-blocked set on success), and cancels the timer of
every grant still referenced from the table (timers of grants that earlier
calls silently un-referenced can survive; see the counterexample); afterwards
no timer fire — indeed no sequence of non-grant events — makes any domain
unblocked again: every configured domain is blocked and remains blocked until
a new grant. -/
theorem c6_revoke_all (s : ManagerState) (ok : Bool) :
    (reblock_all s ok).activeUnblocks = [] ∧
    (reblock_all s ok).syncAttempts = s.syncAttempts + 1 ∧
    (ok = true → (reblock_all s ok).writes = allBlockedDomains s :: s.writes) ∧
    (∀ t ∈ (reblock_all s ok).timers, timerReferenced s t.id = true →
      t.cancelled = true) ∧
    (∀ post, (∀ e ∈ post, e.isGrant = false) →
      ∀ x, is_domain_unblocked (steps (reblock_all s ok) post) x = false) := by
  refine ⟨rfl, rfl, ?_, ?_, ?_⟩
  · intro hok
    subst hok
    show blockedSet _ :: s.writes = allBlockedDomains s :: s.writes
    congr 1
    simp [blockedSet, akeys, allBlockedDomains]
  · intro t ht href
    rcases timerReferenced_spec href with ⟨p, hp, g, hg, hgid⟩
    exact cancelAllLoop_cancels s.grants hp hg s.timers t ht hgid.symm
  · intro post hpost x
    show (alookup (steps (reblock_all s ok) post).activeUnblocks x).isSome = false
    rw [steps_no_grant_keeps_empty post hpost (reblock_all s ok) rfl]
    rfl

/-- C6 witness: after one grant and a `revokeAll`, the table is empty, the
fully-blocked set was synced, and a later stale fire leaves the domain
blocked. -/
theorem c6_revoke_all_witness :
    (reblock_all ((unblock_domain (initState {"a.com"} ∅) "a.com" "1.2.3.4"
        none none "study" 5 true).2) true).activeUnblocks = [] ∧
    (reblock_all ((unblock_domain (initState {"a.com"} ∅) "a.com" "1.2.3.4"
        none none "study" 5 true).2) true).writes =
      allBlockedDomains ((unblock_domain (initState {"a.com"} ∅) "a.com"
        "1.2.3.4" none none "study" 5 true).2) ::
      ((unblock_domain (initState {"a.com"} ∅) "a.com" "1.2.3.4" none none
        "study" 5 true).2).writes ∧
    is_domain_unblocked (steps (reblock_all ((unblock_domain
        (initState {"a.com"} ∅) "a.com" "1.2.3.4" none none "study" 5
        true).2) true) [.advance 10, .fire 0 true]) "a.com" = false :=
  ⟨(c6_revoke_all _ true).1,
   (c6_revoke_all _ true).2.2.1 rfl,
   (c6_revoke_all _ true).2.2.2.2 [.advance 10, .fire 0 true] (by decide)
     "a.com"⟩

/-- Time-advance events change nothing but the clock. -/
theorem steps_advance_only :
    ∀ (mid : List Event), (∀ e ∈ mid, e.isAdvance = true) →
    ∀ s : ManagerState,
      (steps s mid).conditional = s.conditional ∧
      (steps s mid).alwaysBlocked = s.alwaysBlocked ∧
      (steps s mid).activeUnblocks = s.activeUnblocks ∧
      (steps s mid).grants = s.grants ∧
      (steps s mid).timers = s.timers ∧
      (steps s mid).writes = s.writes ∧
      (steps s mid).nextId = s.nextId := by
  intro mid
  induction mid with
  | nil => intro _ s; exact ⟨rfl, rfl, rfl, rfl, rfl, rfl, rfl⟩
  | cons e rest ih =>
    intro hmid s
    have he := hmid e (List.mem_cons_self _ _)
    cases e with
    | advance dt =>
      exact ih (fun e2 h2 => hmid e2 (List.mem_cons_of_mem _ h2))
        { s with now := s.now + (dt : Int) }
    | grant d ip nm sc r dur ok => simp [Event.isAdvance] at he
    | revoke d ok => simp [Event.isAdvance] at he
    | revokeAll ok => simp [Event.isAdvance] at he
    | fire tid ok => simp [Event.isAdvance] at he

/-- A timer whose task list entry survives `cancelExisting` uncancelled was
already in the original timer list. -/
theorem mem_cancelExisting_not_cancelled {s : ManagerState} {d0 : String}
    {t : Timer} (ht : t ∈ cancelExisting s d0) (hnc : t.cancelled = false) :
    t ∈ s.timers := by
  unfold cancelExisting at ht
  cases h1 : alookup s.activeUnblocks d0 with
  | none => simp only [h1] at ht; exact ht
  | some gid =>
    simp only [h1] at ht
    cases h2 : alookup s.grants gid with
    | none => simp only [h2] at ht; exact ht
    | some g =>
      simp only [h2] at ht
      exact (cancelTimer_of_not_cancelled ht hnc).1

theorem mem_domainsToUnblock_self (U : Finset String) (d : String) :
    d ∈ domainsToUnblock U d :=
  List.mem_cons_self _ _

/-- The run invariant behind the re-grant race: as long as every live timer
covering `d` fires no earlier than `bound` and the clock stays below `bound`,
any mix of time advances and timer fires keeps `d` unblocked, and every
blocklist written along the way either predates the baseline or excludes `d`. -/
theorem c1_post_run (d : String) (bound : Int) (W0 : List (Finset String)) :
    ∀ (post : List Event) (s3 : ManagerState),
      (∀ e ∈ post, (e.isAdvance || e.isFire) = true) →
      (steps s3 post).now < bound →
      is_domain_unblocked s3 d = true →
      (∀ t ∈ s3.timers, t.cancelled = false → d ∈ t.domains → bound ≤ t.fireAt) →
      (∀ w ∈ s3.writes, w ∈ W0 ∨ d ∉ w) →
      is_domain_unblocked (steps s3 post) d = true ∧
      (∀ t ∈ (steps s3 post).timers, t.cancelled = false → d ∈ t.domains →
        bound ≤ t.fireAt) ∧
      (∀ w ∈ (steps s3 post).writes, w ∈ W0 ∨ d ∉ w) := by
  intro post
  induction post with
  | nil => intro s3 _ _ h1 h2 h3; exact ⟨h1, h2, h3⟩
  | cons e rest ih =>
    intro s3 hpost htime h1 h2 h3
    have he := hpost e (List.mem_cons_self _ _)
    have hreststep : steps s3 (e :: rest) = steps (step s3 e) rest := rfl
    rw [hreststep] at htime ⊢
    have hstep : is_domain_unblocked (step s3 e) d = true ∧
        (∀ t ∈ (step s3 e).timers, t.cancelled = false → d ∈ t.domains →
          bound ≤ t.fireAt) ∧
        (∀ w ∈ (step s3 e).writes, w ∈ W0 ∨ d ∉ w) := by
      cases e with
      | advance dt => exact ⟨h1, h2, h3⟩
      | grant d2 ip nm sc r dur ok => simp [Event.isAdvance, Event.isFire] at he
      | revoke d2 ok => simp [Event.isAdvance, Event.isFire] at he
      | revokeAll ok => simp [Event.isAdvance, Event.isFire] at he
      | fire tid ok =>
        show is_domain_unblocked (fireTimer s3 tid ok) d = true ∧
          (∀ t ∈ (fireTimer s3 tid ok).timers, t.cancelled = false →
            d ∈ t.domains → bound ≤ t.fireAt) ∧
          (∀ w ∈ (fireTimer s3 tid ok).writes, w ∈ W0 ∨ d ∉ w)
        cases hfind : s3.timers.find? (fun t2 => t2.id == tid) with
        | none =>
          have hnoop : fireTimer s3 tid ok = s3 := by
            unfold fireTimer; rw [hfind]
          rw [hnoop]
          exact ⟨h1, h2, h3⟩
        | some t =>
          by_cases hcan : t.cancelled = true
          · have hnoop : fireTimer s3 tid ok = s3 := by
              unfold fireTimer; rw [hfind]; simp [hcan]
            rw [hnoop]
            exact ⟨h1, h2, h3⟩
          · by_cases hlt : s3.now < t.fireAt
            · have hnoop : fireTimer s3 tid ok = s3 := by
                unfold fireTimer; rw [hfind]; simp [hcan, hlt]
              rw [hnoop]
              exact ⟨h1, h2, h3⟩
            · have hd : d ∉ t.domains := by
                intro hdm
                have hb := h2 t (List.mem_of_find?_eq_some hfind)
                  (eq_false_of_ne_true hcan) hdm
                have hmono : (step s3 (.fire tid ok)).now ≤
                    (steps (step s3 (.fire tid ok)) rest).now :=
                  steps_now_mono rest _
                have hfnow : (step s3 (.fire tid ok)).now = s3.now :=
                  (fireTimer_config s3 tid ok).2.2
                have hge : t.fireAt ≤ s3.now := not_lt.1 hlt
                omega
              rw [fireTimer_fires ok hfind (eq_false_of_ne_true hcan)
                (not_lt.1 hlt)]
              refine ⟨?_, ?_, ?_⟩
              · show (alookup (eraseAll s3.activeUnblocks t.domains) d).isSome =
                  true
                rw [alookup_eraseAll, if_neg hd]
                exact h1
              · intro t2 ht2 hnc2 hdm2
                exact h2 t2 (List.mem_of_mem_filter ht2) hnc2 hdm2
              · intro w hw
                show w ∈ W0 ∨ d ∉ w
                rcases hok : ok with _ | _
                · rw [hok] at hw
                  exact h3 w hw
                · rw [hok] at hw
                  rcases List.mem_cons.1 hw with hw | hw
                  · refine Or.inr ?_
                    subst hw
                    intro hmem
                    rcases Finset.mem_sdiff.1 hmem with ⟨_, hnk⟩
                    apply hnk
                    rw [mem_akeys, alookup_eraseAll, if_neg hd]
                    exact h1
                  · exact h3 w hw
    exact ih (step s3 e) (fun e2 h2 => hpost e2 (List.mem_cons_of_mem _ h2))
      htime hstep.1 hstep.2.1 hstep.2.2

/-- C1 counterexample: the claim as stated fails for chained `www.` spellings.
With `{a.com, www.a.com, www.www.a.com}` all conditional: `grant(a.com, 5)`
schedules timer 0 over `{a.com, www.a.com}`; `grant(www.www.a.com, 100)`
redirects the `www.a.com` key without cancelling timer 0; then
`grant(www.a.com, 10)` (the claim's first grant of `d = www.a.com`, which
cancels only the table-referenced timer 1) and `grant(www.a.com, 30)` (the
claim's second grant, before any timer fired; expiry 30) leave timer 0 alive.
At t = 5 — strictly before the second grant's expiry — timer 0 fires and
re-blocks `www.a.com`: `is_domain_unblocked` is false and the written
blocklist contains `d`, contradicting the claim's conclusion. -/
theorem c1_counterexample :
    is_domain_unblocked (steps (initState
        {"a.com", "www.a.com", "www.www.a.com"} ∅)
        [.grant "a.com" "1.2.3.4" none none "r" 5 true,
         .grant "www.www.a.com" "1.2.3.4" none none "r" 100 true,
         .grant "www.a.com" "1.2.3.4" none none "r" 10 true,
         .grant "www.a.com" "1.2.3.4" none none "r" 30 true]) "www.a.com" =
      true ∧
    (alookup (steps (initState {"a.com", "www.a.com", "www.www.a.com"} ∅)
        [.grant "a.com" "1.2.3.4" none none "r" 5 true,
         .grant "www.www.a.com" "1.2.3.4" none none "r" 100 true,
         .grant "www.a.com" "1.2.3.4" none none "r" 10 true,
         .grant "www.a.com" "1.2.3.4" none none "r" 30 true,
         .advance 5, .fire 0 true]).grants 3).map (fun g => g.expires_at) =
      some 30 ∧
    (steps (initState {"a.com", "www.a.com", "www.www.a.com"} ∅)
        [.grant "a.com" "1.2.3.4" none none "r" 5 true,
         .grant "www.www.a.com" "1.2.3.4" none none "r" 100 true,
         .grant "www.a.com" "1.2.3.4" none none "r" 10 true,
         .grant "www.a.com" "1.2.3.4" none none "r" 30 true,
         .advance 5, .fire 0 true]).now < 30 ∧
    is_domain_unblocked (steps (initState
        {"a.com", "www.a.com", "www.www.a.com"} ∅)
        [.grant "a.com" "1.2.3.4" none none "r" 5 true,
         .grant "www.www.a.com" "1.2.3.4" none none "r" 100 true,
         .grant "www.a.com" "1.2.3.4" none none "r" 10 true,
         .grant "www.a.com" "1.2.3.4" none none "r" 30 true,
         .advance 5, .fire 0 true]) "www.a.com" = false ∧
    "www.a.com" ∈ (steps (initState {"a.com", "www.a.com", "www.www.a.com"} ∅)
        [.grant "a.com" "1.2.3.4" none none "r" 5 true,
         .grant "www.www.a.com" "1.2.3.4" none none "r" 100 true,
         .grant "www.a.com" "1.2.3.4" none none "r" 10 true,
         .grant "www.a.com" "1.2.3.4" none none "r" 30 true,
         .advance 5, .fire 0 true]).writes.headD ∅ := by
  decide

/-- Claim C1 (amended): re-grant supersession closes the stale-timer race
*provided no already-scheduled live timer covers `d` when the first grant is
issued* — true for a fresh manager and for every history without chained
`www.` spellings (the counterexample shows the unrestricted claim fails).
Then a successful grant of `d` followed — after any amount of simulated time,
before the first timer fires — by a second successful grant of `d` cancels
the first grant's timer; a fire of that stale handle is a no-op, `d` is
unblocked immediately after the second grant, and under any further advances
and fires occurring strictly before the second grant's expiry `d` stays
unblocked and every blocklist written since the second grant excludes `d`. -/
theorem c1_regrant_supersession (s : ManagerState) (d ip1 ip2 : String)
    (nm1 sc1 nm2 sc2 : Option String) (r1 r2 : String) (dur1 dur2 : Int)
    (ok1 ok2 : Bool) (mid post : List Event) (s1 s1' s2 : ManagerState)
    (hc : d ∈ s.conditional) (ha : d ∉ s.alwaysBlocked)
    (hclean : ∀ t ∈ s.timers, t.cancelled = false → d ∉ t.domains)
    (hmid : ∀ e ∈ mid, e.isAdvance = true)
    (hpost : ∀ e ∈ post, (e.isAdvance || e.isFire) = true)
    (hs1 : s1 = (unblock_domain s d ip1 nm1 sc1 r1 dur1 ok1).2)
    (hs1' : s1' = steps s1 mid)
    (hs2 : s2 = (unblock_domain s1' d ip2 nm2 sc2 r2 dur2 ok2).2)
    (htime : (steps s2 post).now < s1'.now + dur2) :
    (unblock_domain s d ip1 nm1 sc1 r1 dur1 ok1).1 = true ∧
    (unblock_domain s1' d ip2 nm2 sc2 r2 dur2 ok2).1 = true ∧
    (∀ t ∈ s2.timers, t.id = s.nextId → t.cancelled = true) ∧
    (∀ ok3, fireTimer s2 s.nextId ok3 = s2) ∧
    is_domain_unblocked s2 d = true ∧
    is_domain_unblocked (steps s2 post) d = true ∧
    (∀ w ∈ (steps s2 post).writes, w ∈ s1'.writes ∨ d ∉ w) := by
  rw [unblock_domain_valid s d ip1 nm1 sc1 r1 dur1 ok1 ha hc] at hs1
  have hadv := steps_advance_only mid hmid s1
  rw [← hs1'] at hadv
  have hc' : d ∈ s1'.conditional := by
    rw [hadv.1, hs1]; exact hc
  have ha' : d ∉ s1'.alwaysBlocked := by
    rw [hadv.2.1, hs1]; exact ha
  have hall : allBlockedDomains s1' = allBlockedDomains s := by
    unfold allBlockedDomains
    rw [hadv.1, hadv.2.1, hs1]
    rfl
  have hnext1' : s1'.nextId = s.nextId + 1 := by
    rw [hadv.2.2.2.2.2.2, hs1]
    rfl
  have hlook : alookup s1'.activeUnblocks d = some s.nextId := by
    rw [hadv.2.2.1, hs1]
    show alookup (insertAll s.activeUnblocks
      (domainsToUnblock (allBlockedDomains s) d) s.nextId) d = some s.nextId
    rw [alookup_insertAll, if_pos (mem_domainsToUnblock_self _ _)]
  have hgr : alookup s1'.grants s.nextId =
      some (mkActiveUnblock d ip1 nm1 sc1 r1 dur1 s.now s.nextId) := by
    rw [hadv.2.2.2.1, hs1]
    show alookup (ainsert s.grants s.nextId _) s.nextId = _
    rw [alookup_ainsert, if_pos rfl]
  have hce : cancelExisting s1' d = cancelTimer s1'.timers s.nextId := by
    simp only [cancelExisting, hlook, hgr, mkActiveUnblock]
  have htimers1' : s1'.timers =
      { id := s.nextId, domains := domainsToUnblock (allBlockedDomains s) d,
        fireAt := s.now + dur1, cancelled := false } :: cancelExisting s d := by
    rw [hadv.2.2.2.2.1, hs1]
    rfl
  rw [unblock_domain_valid s1' d ip2 nm2 sc2 r2 dur2 ok2 ha' hc'] at hs2
  have htimers2 : s2.timers =
      { id := s1'.nextId,
        domains := domainsToUnblock (allBlockedDomains s1') d,
        fireAt := s1'.now + dur2, cancelled := false } ::
        cancelTimer s1'.timers s.nextId := by
    rw [hs2]
    show ({ id := s1'.nextId,
            domains := domainsToUnblock (allBlockedDomains s1') d,
            fireAt := s1'.now + dur2, cancelled := false } : Timer) ::
        cancelExisting s1' d = _
    rw [hce]
  have hconclA : ∀ t ∈ s2.timers, t.id = s.nextId → t.cancelled = true := by
    intro t ht hid
    rw [htimers2] at ht
    rcases List.mem_cons.1 ht with rfl | ht
    · exfalso
      have hid2 : s1'.nextId = s.nextId := hid
      omega
    · exact cancelTimer_cancelled_at ht hid
  have hconclC : is_domain_unblocked s2 d = true := by
    rw [hs2]
    show (alookup (insertAll s1'.activeUnblocks
      (domainsToUnblock (allBlockedDomains s1') d) s1'.nextId) d).isSome = true
    rw [alookup_insertAll, if_pos (mem_domainsToUnblock_self _ _)]
    rfl
  have hJ2 : ∀ t ∈ s2.timers, t.cancelled = false → d ∈ t.domains →
      s1'.now + dur2 ≤ t.fireAt := by
    intro t ht hnc hdm
    rw [htimers2] at ht
    rcases List.mem_cons.1 ht with rfl | ht
    · exact le_rfl
    · rcases cancelTimer_of_not_cancelled ht hnc with ⟨ht', hne⟩
      rw [htimers1'] at ht'
      rcases List.mem_cons.1 ht' with rfl | ht'
      · exact absurd rfl hne
      · exact absurd hdm
          (hclean t (mem_cancelExisting_not_cancelled ht' hnc) hnc)
  have hJ3 : ∀ w ∈ s2.writes, w ∈ s1'.writes ∨ d ∉ w := by
    intro w hw
    rw [hs2] at hw
    show w ∈ s1'.writes ∨ d ∉ w
    rcases hok : ok2 with _ | _
    · rw [hok] at hw
      exact Or.inl hw
    · rw [hok] at hw
      rcases List.mem_cons.1 hw with rfl | hw
      · refine Or.inr fun hmem => ?_
        rcases Finset.mem_sdiff.1 hmem with ⟨_, hnk⟩
        apply hnk
        rw [mem_akeys, alookup_insertAll, if_pos (mem_domainsToUnblock_self _ _)]
        rfl
      · exact Or.inl hw
  have hrun := c1_post_run d (s1'.now + dur2) s1'.writes post s2 hpost htime
    hconclC hJ2 hJ3
  refine ⟨?_, ?_, hconclA, ?_, hconclC, hrun.1, hrun.2.2⟩
  · rw [unblock_domain_valid s d ip1 nm1 sc1 r1 dur1 ok1 ha hc]
  · rw [unblock_domain_valid s1' d ip2 nm2 sc2 r2 dur2 ok2 ha' hc']
  · intro ok3
    exact fireTimer_noop_of_cancelled ok3 hconclA

/-- C1 witness: the spec scenario — grant for 10 minutes, re-grant for 30 at
t=5, stale fire attempted at t=15 — keeps the domain unblocked with no
re-blocking write. -/
theorem c1_regrant_supersession_witness :
    (let s0 := initState {"a.com"} ∅
     let s1 := (unblock_domain s0 "a.com" "1.2.3.4" none none "r1" 10 true).2
     let s1' := steps s1 [.advance 5]
     let s2 := (unblock_domain s1' "a.com" "5.6.7.8" none none "r2" 30 true).2
     (steps s2 [.advance 10, .fire 0 true]).now < s1'.now + 30 ∧
     (∀ t ∈ s2.timers, t.id = s0.nextId → t.cancelled = true) ∧
     is_domain_unblocked s2 "a.com" = true ∧
     is_domain_unblocked (steps s2 [.advance 10, .fire 0 true]) "a.com" =
       true) := by
  refine ⟨by decide, ?_, ?_, ?_⟩
  · exact (c1_regrant_supersession (initState {"a.com"} ∅) "a.com" "1.2.3.4"
      "5.6.7.8" none none none none "r1" "r2" 10 30 true true [.advance 5]
      [.advance 10, .fire 0 true] _ _ _ (by decide) (by decide) (by decide)
      (by decide) (by decide) rfl rfl rfl (by decide)).2.2.1
  · exact (c1_regrant_supersession (initState {"a.com"} ∅) "a.com" "1.2.3.4"
      "5.6.7.8" none none none none "r1" "r2" 10 30 true true [.advance 5]
      [.advance 10, .fire 0 true] _ _ _ (by decide) (by decide) (by decide)
      (by decide) (by decide) rfl rfl rfl (by decide)).2.2.2.2.1
  · exact (c1_regrant_supersession (initState {"a.com"} ∅) "a.com" "1.2.3.4"
      "5.6.7.8" none none none none "r1" "r2" 10 30 true true [.advance 5]
      [.advance 10, .fire 0 true] _ _ _ (by decide) (by decide) (by decide)
      (by decide) (by decide) rfl rfl rfl (by decide)).2.2.2.2.2.1

end PGuard
